import Mathlib

/-!
Shallow embedding of the fetch pipeline of gated-page-scraper
(src/gated_text_collector.py, plus ensure_tables of src/gated_page_scraper.py).

Conventions of the embedding:
* Python floats that hold durations (seconds) are modelled as rationals.
* A Python dict of extracted fields is an association list with the newest
  binding in front, so List.lookup sees the latest update, as dict.get does.
* Stateful async code is sequentialized: the workers' acquire calls are a
  serialized sequence (the bucket lock enforces this), the aggregator is a
  fold over the list of results it consumes from the results queue.
-/

set_option maxRecDepth 16000

/-- Collection constants of gated_text_collector.py (lines 35-42). -/
def DEFAULT_CONCURRENCY : Nat := 3

/-- DEFAULT_QPS = 0.7. -/
def DEFAULT_QPS : ℚ := 7/10

/-- DEFAULT_BATCH = 100. -/
def DEFAULT_BATCH : Nat := 100

/-- RETRIES = 3. -/
def RETRIES : Nat := 3

/-- BASE_DELAY = 0.8 (seconds). -/
def BASE_DELAY : ℚ := 8/10

/-- Backoff multiplier 1.8 from fetch_all_for_code (delay *= 1.8). -/
def BACKOFF_MULT : ℚ := 9/5

/-!
TokenBucket (gated_text_collector.py lines 148-158).

    class TokenBucket:
        def __init__(self, qps):
            self.interval = 1.0 / max(qps, 0.0001)
            self._next = time.monotonic()
        async def acquire(self):
            async with self._lock:
                now = time.monotonic()
                if now < self._next:
                    await asyncio.sleep(self._next - now)
                self._next = max(now, self._next) + self.interval

The lock serializes the acquire calls, so a run of the limiter is the
sequence of calls in lock order; call i reads the monotonic clock as nows i.
The admitted start time of a call is now when now >= next, else next
(the sleep wakes at next): in both cases max now next.
-/

structure TokenBucket where
  interval : ℚ
  next : ℚ
deriving DecidableEq

/-- Constructor: interval = 1 / max(qps, 0.0001), next = current time. -/
def TokenBucket.init (qps : ℚ) (now : ℚ) : TokenBucket :=
  ⟨1 / max qps (1/10000), now⟩

/-- One acquire call at clock value now: returns the admitted fetch-start
time and the updated bucket. -/
def TokenBucket.acquire (b : TokenBucket) (now : ℚ) : ℚ × TokenBucket :=
  (max now b.next, ⟨b.interval, max now b.next + b.interval⟩)

/-- The serialized sequence of acquire calls: call n reads the clock as
nows n. Result: the admitted time and bucket state after call n. -/
def acquireSeq (b : TokenBucket) (nows : ℕ → ℚ) : ℕ → ℚ × TokenBucket
  | 0 => b.acquire (nows 0)
  | n + 1 => ((acquireSeq b nows n).2).acquire (nows (n + 1))

/-- Admitted fetch-start time of the n-th acquire call. -/
def admitTime (b : TokenBucket) (nows : ℕ → ℚ) (n : ℕ) : ℚ :=
  (acquireSeq b nows n).1

/-!
Retrying fetch (gated_text_collector.py lines 438-450).

    async def fetch_all_for_code(page, code):
        data = {}
        for fn in (fetch_overview, fetch_report, fetch_profile,
                   fetch_analysis, fetch_extra):
            delay = BASE_DELAY
            for attempt in range(RETRIES):
                try:
                    chunk = await fn(page, code)
                    data.update(chunk)
                    break
                except (PwTimeout, Exception):
                    if attempt < RETRIES - 1:
                        await asyncio.sleep(delay); delay *= 1.8
        return data

A tab fetcher is modelled by the outcome of each attempt: some chunk when
the call returns, none when it raises. The elapsed time tracked by the
model is the total backoff sleep, a lower bound on wall-clock time.
-/

/-- Outcome of one tab fetcher at each attempt index. -/
abbrev FetchBehavior : Type := ℕ → Option (List (String × String))

/-- The inner retry loop, with r attempts remaining, current attempt index
and current delay. Returns (chunk outcome, total sleep, attempts used).
A sleep happens only when attempt < RETRIES - 1, i.e. when at least one
more attempt remains after the failing one. -/
def retryFrom (f : FetchBehavior) : ℕ → ℕ → ℚ →
    Option (List (String × String)) × ℚ × ℕ
  | 0, _, _ => (none, 0, 0)
  | r + 1, attempt, delay =>
    match f attempt with
    | some c => (some c, 0, 1)
    | none =>
      match r with
      | 0 => (none, 0, 1)
      | _ + 1 =>
        let rest := retryFrom f r (attempt + 1) (delay * BACKOFF_MULT)
        (rest.1, delay + rest.2.1, rest.2.2 + 1)

/-- The retry loop as entered for one tab fetcher: RETRIES attempts,
initial delay BASE_DELAY. -/
def retryFetch (f : FetchBehavior) :
    Option (List (String × String)) × ℚ × ℕ :=
  retryFrom f RETRIES 0 BASE_DELAY

/-- dict.update: bindings of the new chunk shadow older ones for lookup. -/
def updateAssoc (d c : List (String × String)) : List (String × String) :=
  c ++ d

/-- One turn of the outer loop of fetch_all_for_code: run the retry loop
for one tab fetcher, merge its chunk into data when it returned one, and
accumulate the backoff sleep. -/
def fetchStep (acc : List (String × String) × ℚ) (f : FetchBehavior) :
    List (String × String) × ℚ :=
  match (retryFetch f).1 with
  | some c => (updateAssoc acc.1 c, acc.2 + (retryFetch f).2.1)
  | none => (acc.1, acc.2 + (retryFetch f).2.1)

/-- fetch_all_for_code over the five tab fetchers of one code: folds the
retry loop over them, merging whatever chunks were obtained and summing
the backoff sleeps. A tab whose every attempt raises contributes nothing
to data and raises nothing: the broad except swallows each failure. -/
def fetch_all_for_code (fs : List FetchBehavior) :
    List (String × String) × ℚ :=
  fs.foldl fetchStep ([], 0)

/-!
Worker (gated_text_collector.py lines 453-469): dequeue an item; a None
item stops the worker; otherwise acquire the bucket, run the fetch and put
exactly one result tuple (td, code, data, err) — data with err = None when
the fetch returned, err set when it raised.
-/

/-- One tuple put on the results queue by a worker. -/
structure FetchResult where
  td : String
  code : String
  data : Option (List (String × String))
  err : Option String
deriving DecidableEq

/-- The body of the worker loop for one dequeued job: one result tuple,
whether the awaited fetch returns or raises. -/
def workerResult
    (fetch : String × String → Except String (List (String × String)))
    (job : String × String) : FetchResult :=
  match fetch job with
  | Except.ok d => ⟨job.1, job.2, some d, none⟩
  | Except.error e => ⟨job.1, job.2, none, some e⟩

/-- The fetch actually awaited by the worker: fetch_all_for_code, which
always returns (its retry loop catches every exception). -/
def collectorFetch (fs : List FetchBehavior) :
    String × String → Except String (List (String × String)) :=
  fun _ => Except.ok (fetch_all_for_code fs).1

/-- A worker consuming its sequence of dequeued items: stops at the first
None (stop marker), emits one result per job before it. -/
def workerRun
    (fetch : String × String → Except String (List (String × String))) :
    List (Option (String × String)) → List FetchResult
  | [] => []
  | none :: _ => []
  | some j :: rest => workerResult fetch j :: workerRun fetch rest

/-- A tab fetcher whose every attempt raises. -/
def allFailBehavior : FetchBehavior := fun _ => none

/-- The five tab fetchers of a code whose every attempt raises. -/
def fsFail : List FetchBehavior := List.replicate 5 allFailBehavior

/-!
Saved column order and the aggregator loop of run
(gated_text_collector.py lines 119-137 and 472-531).
-/

/-- FIELD_ORDER (gated_text_collector.py lines 119-137). -/
def FIELD_ORDER : List String :=
  ["company_name", "code_label", "price_now",
   "rating_text", "company_overview", "performance", "topics_title",
   "topics_body", "risk_title", "risk_body", "investment_view",
   "shikiho_gaiyo", "top_holders", "executives",
   "score_total", "score_total_avg", "score_fin_health",
   "score_fin_health_s", "score_profit", "score_profit_s", "score_cheap",
   "score_cheap_s", "score_stable", "score_stable_s", "score_momentum",
   "score_momentum_s", "target_price", "deviation",
   "analyst_comment", "tp_consensus", "tp_wow", "tp_deviation",
   "rating_now", "rating_w1", "rating_m1", "rating_m3",
   "bull", "slightly_bull", "neutral", "slightly_bear", "bear",
   "rating_comment"]

/-- Row built in the aggregator loop (line 517):
row = [td0, code] + [data.get(k, "") for k in FIELD_ORDER]. -/
def buildRow (td code : String) (data : List (String × String)) :
    List String :=
  td :: code :: FIELD_ORDER.map (fun k => ((List.lookup k data).getD ""))

/-- Aggregator state of run: the counters done/ok/ng, the pending buffer
buf, and the executemany calls issued so far (each one list of rows). -/
structure AggState where
  done : ℕ
  ok : ℕ
  ng : ℕ
  buf : List (List String)
  flushes : List (List (List String))
deriving DecidableEq

/-- Initial aggregator state: done = ok = ng = 0, buf = []. -/
def aggInit : AggState := ⟨0, 0, 0, [], []⟩

/-- One iteration of the aggregator loop (lines 513-522): consume one
result tuple; a success (err is None and data is not None) appends a row
to buf and flushes when len(buf) >= batch; anything else counts ng. -/
def aggStep (batch : ℕ) (s : AggState) (r : FetchResult) : AggState :=
  match r.err, r.data with
  | none, some data =>
    let row := buildRow r.td r.code data
    let buf := s.buf ++ [row]
    if batch ≤ buf.length then
      ⟨s.done + 1, s.ok + 1, s.ng, [], s.flushes ++ [buf]⟩
    else
      ⟨s.done + 1, s.ok + 1, s.ng, buf, s.flushes⟩
  | _, _ => ⟨s.done + 1, s.ok, s.ng + 1, s.buf, s.flushes⟩

/-- The aggregator loop over the results it consumes, in order. -/
def aggLoop (batch : ℕ) (s : AggState) (rs : List FetchResult) : AggState :=
  rs.foldl (aggStep batch) s

/-- The finally-block of run (lines 527-529): flush the remaining buffer
if it is nonempty. -/
def aggFinal (s : AggState) : AggState :=
  if s.buf = [] then s else ⟨s.done, s.ok, s.ng, [], s.flushes ++ [s.buf]⟩

/-- A full aggregator run over a results list: the loop then the
finally-block flush. -/
def runAgg (batch : ℕ) (rs : List FetchResult) : AggState :=
  aggFinal (aggLoop batch aggInit rs)

/-- The aggregator terminated after consuming only the first k results
(loop exit, cancellation or an error mid-run): the finally-block still
runs and flushes the buffer. -/
def runAggEarly (batch k : ℕ) (rs : List FetchResult) : AggState :=
  aggFinal (aggLoop batch aggInit (rs.take k))

/-- The rows a success contributes, in consumption order. -/
def successRows (rs : List FetchResult) : List (List String) :=
  rs.filterMap (fun r =>
    match r.err, r.data with
    | none, some d => some (buildRow r.td r.code d)
    | _, _ => none)

/-- Flush sizes emitted by the loop on an all-success stream, starting
from a buffer holding pre rows, over n results (spec-side recurrence used
to state the batch pattern). -/
def sizesFrom (batch pre : ℕ) : ℕ → List ℕ
  | 0 => []
  | n + 1 =>
    if batch ≤ pre + 1 then batch :: sizesFrom batch 0 n
    else sizesFrom batch (pre + 1) n

/-- Buffer length left by the loop on an all-success stream, starting from
pre buffered rows, over n results. -/
def bufLenFrom (batch pre : ℕ) : ℕ → ℕ
  | 0 => pre
  | n + 1 =>
    if batch ≤ pre + 1 then bufLenFrom batch 0 n
    else bufLenFrom batch (pre + 1) n

/-- A result is a success for the aggregator when err is None and data is
not None. -/
def isSuccess (r : FetchResult) : Bool :=
  r.err.isNone && r.data.isSome

/-!
Pipeline control in run and main (gated_text_collector.py lines 472-563).
-/

/-- Number of worker tasks created by run (line 506):
max(1, min(concurrency, 8)) — independent of the number of jobs. -/
def runWorkersStarted (concurrency : ℕ) : ℕ :=
  max 1 (min concurrency 8)

/-- Every jobs.put executed by run, in order: the seeding loop (lines
480-481) enqueues one job per code and nothing else — the local function
stop_workers (lines 508-510) is defined but never invoked, and the worker
tasks are never awaited. -/
def runQueuePuts (td : String) (codes : List String) :
    List (Option (String × String)) :=
  codes.map (fun c => some (td, c))

/-- The body of stop_workers as written (lines 508-510): one None stop
marker per worker — this is what a call would enqueue. -/
def stop_workers_puts (numWorkers : ℕ) : List (Option (String × String)) :=
  List.replicate numWorkers none

/-- The final tally printed by run's finally-block (line 531):
(ok, ng, total). -/
def runReport (batch : ℕ) (rs : List FetchResult) (total : ℕ) : ℕ × ℕ × ℕ :=
  ((runAgg batch rs).ok, (runAgg batch rs).ng, total)

/-- Outcome of main's dispatch (lines 550-563). -/
inductive MainOutcome where
  | noTargets
  | pipeline (codes : List String)
deriving DecidableEq

/-- main (lines 550-563): an explicit code argument runs the pipeline on
that single code; otherwise the enumerated target list runs, except that
an empty list makes main print a message and return without calling run
(no workers, no aggregator, no final counter report). -/
def mainDispatch (codeArg : Option String) (targets : List String) :
    MainOutcome :=
  match codeArg with
  | some c => MainOutcome.pipeline [c]
  | none =>
    if targets.isEmpty then MainOutcome.noTargets
    else MainOutcome.pipeline targets

/-!
ensure_tables (gated_text_collector.py lines 161-232 and
gated_page_scraper.py lines 406-447). Both create the report table if
absent — with target_date, code and every field column — then read the
existing columns via PRAGMA table_info and issue one ALTER TABLE ADD
COLUMN per field column not already present. The scraper variant retries
an ALTER on lock contention, which does not change the resulting schema.
-/

/-- The schema state of the report table: whether it exists and its
column list. -/
structure Schema where
  hasTable : Bool
  cols : List String
deriving DecidableEq

/-- Column list of the CREATE TABLE statement: target_date, code, then the
field columns (for the text collector the explicit list of the CREATE
coincides with FIELD_ORDER; the scraper builds it from FIELDS directly). -/
def createCols (fields : List String) : List String :=
  "target_date" :: "code" :: fields

/-- ensure_tables over a field list: create the table if absent, then add
the missing field columns. Returns the new schema and the list of columns
for which an ALTER TABLE was issued. -/
def ensureTablesGen (fields : List String) (s : Schema) :
    Schema × List String :=
  let s1 : Schema := if s.hasTable then s else ⟨true, createCols fields⟩
  let toAdd := fields.filter (fun c => decide (c ∉ s1.cols))
  (⟨true, s1.cols ++ toAdd⟩, toAdd)

/-- FIELDS (gated_page_scraper.py lines 125-144). -/
def FIELDS : List String :=
  ["sales_growth", "op_profit_growth", "op_margin", "roe", "roa",
   "equity_ratio", "dividend_payout",
   "sales_growth_f", "op_profit_growth_f", "op_margin_f", "roe_f", "roa_f",
   "equity_ratio_f", "dividend_payout_f",
   "score_total", "score_total_avg",
   "score_fin_health", "score_fin_health_avg",
   "score_profit", "score_profit_avg",
   "score_cheap", "score_cheap_avg",
   "score_stable", "score_stable_avg",
   "score_momentum", "score_momentum_avg",
   "target_price", "deviation_value", "deviation_change",
   "flash_weather", "profit_progress_period", "profit_progress_rate",
   "tp_consensus_latest", "tp_consensus_wow", "tp_consensus_deviation",
   "rating_dist_latest"]

/-- ensure_tables of gated_text_collector.py (table sample_text_reports,
columns FIELD_ORDER). -/
def ensure_tables_text (s : Schema) : Schema × List String :=
  ensureTablesGen FIELD_ORDER s

/-- ensure_tables of gated_page_scraper.py (table gated_detailed_reports,
columns FIELDS). -/
def ensure_tables_scraper (s : Schema) : Schema × List String :=
  ensureTablesGen FIELDS s

/-- A sample successful result tuple, for concrete evaluations. -/
def demoSuccess : FetchResult :=
  ⟨"20240101", "1234", some [("company_name", "A")], none⟩

/-- A sample failed result tuple, for concrete evaluations. -/
def demoFailure : FetchResult :=
  ⟨"20240101", "5678", none, some "boom"⟩

/-- A sample tab fetcher that raises on attempts 0 and 1 and returns a
chunk on attempt 2. -/
def demoFailTwice : FetchBehavior :=
  fun n => if n = 2 then some [("company_name", "A")] else none

theorem acquireSeq_interval (b : TokenBucket) (nows : ℕ → ℚ) (n : ℕ) :
    (acquireSeq b nows n).2.interval = b.interval := by
  induction n with
  | zero => rfl
  | succ n ih => simp [acquireSeq, TokenBucket.acquire, ih]

theorem acquireSeq_next (b : TokenBucket) (nows : ℕ → ℚ) (n : ℕ) :
    (acquireSeq b nows n).2.next = admitTime b nows n + b.interval := by
  cases n with
  | zero => simp [acquireSeq, TokenBucket.acquire, admitTime]
  | succ n =>
    simp [acquireSeq, TokenBucket.acquire, admitTime, acquireSeq_interval]

/-- Consecutive admitted starts are at least one interval apart. -/
theorem admitTime_succ_ge (b : TokenBucket) (nows : ℕ → ℚ) (n : ℕ) :
    admitTime b nows n + b.interval ≤ admitTime b nows (n + 1) := by
  have h : admitTime b nows (n + 1)
      = max (nows (n + 1)) ((acquireSeq b nows n).2.next) := by
    simp [admitTime, acquireSeq, TokenBucket.acquire]
  rw [h, acquireSeq_next]
  exact le_max_right _ _

/-- Telescoped spacing: k+1 calls after call m are at least (k+1) intervals
later. -/
theorem admitTime_add_ge (b : TokenBucket) (nows : ℕ → ℚ) (m k : ℕ) :
    admitTime b nows m + (k + 1 : ℕ) * b.interval
      ≤ admitTime b nows (m + (k + 1)) := by
  induction k with
  | zero =>
    simpa using admitTime_succ_ge b nows m
  | succ k ih =>
    have step := admitTime_succ_ge b nows (m + (k + 1))
    have : admitTime b nows m + (k + 1 : ℕ) * b.interval + b.interval
        ≤ admitTime b nows (m + (k + 1)) + b.interval := by
      exact add_le_add_right ih _
    calc admitTime b nows m + (k + 1 + 1 : ℕ) * b.interval
        = admitTime b nows m + (k + 1 : ℕ) * b.interval + b.interval := by
          push_cast; ring
      _ ≤ admitTime b nows (m + (k + 1)) + b.interval := this
      _ ≤ admitTime b nows (m + (k + 1) + 1) := step

/-- C2: across all workers combined (the serialized acquire sequence), two
fetch starts are never admitted closer together than the interval — any two
distinct calls are at least one interval apart, and j - i gaps accumulate
at least (j - i) intervals; with qps = 2.0 the interval is 0.5 s, so calls
0 and 9 (ten consecutive acquires) are admitted at least 4.5 s apart. -/
theorem C2_rate_limiter_spacing (t0 : ℚ) (nows : ℕ → ℚ) :
    (∀ (b : TokenBucket) (m : ℕ),
        admitTime b nows m + b.interval ≤ admitTime b nows (m + 1))
    ∧ (TokenBucket.init 2 t0).interval = 1/2
    ∧ (∀ m k : ℕ, admitTime (TokenBucket.init 2 t0) nows m + 1/2
        ≤ admitTime (TokenBucket.init 2 t0) nows (m + (k + 1)))
    ∧ admitTime (TokenBucket.init 2 t0) nows 0 + 9/2
        ≤ admitTime (TokenBucket.init 2 t0) nows 9 := by
  have h2 : max (2 : ℚ) (1/10000) = 2 := by
    rw [max_eq_left]; norm_num
  have hi : (TokenBucket.init 2 t0).interval = 1/2 := by
    show 1 / max (2 : ℚ) (1/10000) = 1/2
    rw [h2]
  refine ⟨fun b m => admitTime_succ_ge b nows m, hi, ?_, ?_⟩
  · intro m k
    have h := admitTime_add_ge (TokenBucket.init 2 t0) nows m k
    rw [hi] at h
    have hk : (1 : ℚ)/2 ≤ (k + 1 : ℕ) * (1/2) := by
      push_cast
      nlinarith [Nat.cast_nonneg (α := ℚ) k]
    linarith
  · have h := admitTime_add_ge (TokenBucket.init 2 t0) nows 0 8
    rw [hi] at h
    norm_num at h
    linarith


theorem retryFrom_some (f : FetchBehavior) (r a : ℕ) (d : ℚ)
    (c : List (String × String)) (h : f a = some c) :
    retryFrom f (r + 1) a d = (some c, 0, 1) := by
  simp only [retryFrom, h]

theorem retryFrom_one_none (f : FetchBehavior) (a : ℕ) (d : ℚ)
    (h : f a = none) : retryFrom f 1 a d = (none, 0, 1) := by
  simp only [retryFrom, h]

theorem retryFrom_succ_none (f : FetchBehavior) (r a : ℕ) (d : ℚ)
    (h : f a = none) :
    retryFrom f (r + 1 + 1) a d
      = ((retryFrom f (r + 1) (a + 1) (d * BACKOFF_MULT)).1,
         d + (retryFrom f (r + 1) (a + 1) (d * BACKOFF_MULT)).2.1,
         (retryFrom f (r + 1) (a + 1) (d * BACKOFF_MULT)).2.2 + 1) := by
  simp only [retryFrom, h]

theorem retryFrom_attempts_le (f : FetchBehavior) :
    ∀ (r a : ℕ) (d : ℚ), (retryFrom f r a d).2.2 ≤ r := by
  intro r
  induction r with
  | zero => intro a d; simp [retryFrom]
  | succ r ih =>
    intro a d
    cases hf : f a with
    | some c => rw [retryFrom_some f r a d c hf]; simp
    | none =>
      cases r with
      | zero =>
        show (retryFrom f 1 a d).2.2 ≤ 1
        rw [retryFrom_one_none f a d hf]
      | succ r' =>
        rw [retryFrom_succ_none f r' a d hf]
        have h := ih (a + 1) (d * BACKOFF_MULT)
        simp only []
        omega

theorem retryFrom_sleep_nonneg (f : FetchBehavior) :
    ∀ (r a : ℕ) (d : ℚ), 0 ≤ d → 0 ≤ (retryFrom f r a d).2.1 := by
  intro r
  induction r with
  | zero => intro a d _; simp [retryFrom]
  | succ r ih =>
    intro a d hd
    cases hf : f a with
    | some c => rw [retryFrom_some f r a d c hf]
    | none =>
      cases r with
      | zero =>
        show (0 : ℚ) ≤ (retryFrom f 1 a d).2.1
        rw [retryFrom_one_none f a d hf]
      | succ r' =>
        rw [retryFrom_succ_none f r' a d hf]
        have hd' : 0 ≤ d * BACKOFF_MULT := by
          have hB : (0 : ℚ) ≤ BACKOFF_MULT := by norm_num [BACKOFF_MULT]
          exact mul_nonneg hd hB
        have h := ih (a + 1) (d * BACKOFF_MULT) hd'
        show 0 ≤ d + (retryFrom f (r' + 1) (a + 1) (d * BACKOFF_MULT)).2.1
        linarith

theorem retryFetch_sleep_nonneg (f : FetchBehavior) :
    0 ≤ (retryFetch f).2.1 :=
  retryFrom_sleep_nonneg f RETRIES 0 BASE_DELAY (by norm_num [BASE_DELAY])

theorem retryFetch_attempts_le (f : FetchBehavior) :
    (retryFetch f).2.2 ≤ RETRIES :=
  retryFrom_attempts_le f RETRIES 0 BASE_DELAY

/-- A fetcher failing on attempts 0 and 1 and returning on attempt 2:
the retry loop returns that chunk after exactly 3 attempts, having slept
BASE_DELAY and then BASE_DELAY * 1.8. -/
theorem retryFetch_fail_twice (f : FetchBehavior)
    (c : List (String × String))
    (h0 : f 0 = none) (h1 : f 1 = none) (h2 : f 2 = some c) :
    retryFetch f = (some c, BASE_DELAY + BASE_DELAY * BACKOFF_MULT, 3) := by
  have e : retryFetch f = retryFrom f (1 + 1 + 1) 0 BASE_DELAY := rfl
  rw [e, retryFrom_succ_none f 1 0 BASE_DELAY h0,
    retryFrom_succ_none f 0 (0 + 1) (BASE_DELAY * BACKOFF_MULT) h1]
  rw [retryFrom_some f 0 (0 + 1 + 1) (BASE_DELAY * BACKOFF_MULT * BACKOFF_MULT) c h2]
  norm_num

theorem fetchFold_sleep (fs : List FetchBehavior) :
    ∀ acc : List (String × String) × ℚ,
      (fs.foldl fetchStep acc).2
        = acc.2 + (fs.map (fun f => (retryFetch f).2.1)).sum := by
  induction fs with
  | nil => intro acc; simp
  | cons f fs ih =>
    intro acc
    have hstep : (fetchStep acc f).2 = acc.2 + (retryFetch f).2.1 := by
      unfold fetchStep
      cases (retryFetch f).1 <;> rfl
    simp only [List.foldl_cons, List.map_cons, List.sum_cons, ih, hstep]
    ring

theorem fetch_all_sleep (fs : List FetchBehavior) :
    (fetch_all_for_code fs).2
      = (fs.map (fun f => (retryFetch f).2.1)).sum := by
  have h := fetchFold_sleep fs ([], 0)
  simpa [fetch_all_for_code] using h

/-- The total backoff sleep of a code dominates the sleep of each of its
tab fetchers. -/
theorem fetch_sleep_member_le (fs : List FetchBehavior) (f : FetchBehavior)
    (h : f ∈ fs) : (retryFetch f).2.1 ≤ (fetch_all_for_code fs).2 := by
  rw [fetch_all_sleep]
  exact List.single_le_sum
    (fun x hx => by
      obtain ⟨g, _, rfl⟩ := List.mem_map.1 hx
      exact retryFetch_sleep_nonneg g)
    _ (List.mem_map.2 ⟨f, h, rfl⟩)

theorem retryFrom_allfail (f : FetchBehavior) (hf : ∀ n, f n = none) :
    ∀ (r a : ℕ) (d : ℚ), (retryFrom f r a d).1 = none := by
  intro r
  induction r with
  | zero => intro a d; simp [retryFrom]
  | succ r ih =>
    intro a d
    cases r with
    | zero =>
      show (retryFrom f 1 a d).1 = none
      rw [retryFrom_one_none f a d (hf a)]
    | succ r' =>
      rw [retryFrom_succ_none f r' a d (hf a)]
      exact ih (a + 1) (d * BACKOFF_MULT)

/-- A code whose every tab fetch attempt raises still yields data: the
empty record, with nothing raised. -/
theorem fetch_all_data_allfail (fs : List FetchBehavior)
    (h : ∀ f ∈ fs, ∀ n, f n = none) : (fetch_all_for_code fs).1 = [] := by
  have key : ∀ (gs : List FetchBehavior), (∀ f ∈ gs, ∀ n, f n = none) →
      ∀ acc : List (String × String) × ℚ,
        (gs.foldl fetchStep acc).1 = acc.1 := by
    intro gs
    induction gs with
    | nil => intro _ acc; simp
    | cons g gs ih =>
      intro hgs acc
      have hg : (retryFetch g).1 = none :=
        retryFrom_allfail g (hgs g (List.mem_cons_self g gs)) RETRIES 0 BASE_DELAY
      have hstep : (fetchStep acc g).1 = acc.1 := by
        unfold fetchStep
        rw [hg]
      simp only [List.foldl_cons]
      rw [ih (fun f hf n => hgs f (List.mem_cons_of_mem g hf) n) (fetchStep acc g),
        hstep]
  simpa [fetch_all_for_code] using key fs h ([], 0)

theorem workerRun_eq
    (fetch : String × String → Except String (List (String × String)))
    (items : List (Option (String × String))) :
    workerRun fetch items
      = ((items.takeWhile Option.isSome).filterMap id).map
          (workerResult fetch) := by
  induction items with
  | nil => rfl
  | cons it rest ih =>
    cases it with
    | none => simp [workerRun, List.takeWhile]
    | some j => simp [workerRun, List.takeWhile, ih]

theorem workerRun_jobs
    (fetch : String × String → Except String (List (String × String)))
    (l : List (String × String)) :
    workerRun fetch (l.map some) = l.map (workerResult fetch) := by
  induction l with
  | nil => rfl
  | cons j l ih => simp [workerRun, ih]

theorem aggStep_done (batch : ℕ) (s : AggState) (r : FetchResult) :
    (aggStep batch s r).done = s.done + 1 := by
  rcases r with ⟨td, code, data, err⟩
  cases err <;> cases data <;> (simp [aggStep]; try split) <;> rfl

theorem aggStep_ok_ng (batch : ℕ) (s : AggState) (r : FetchResult) :
    (aggStep batch s r).ok + (aggStep batch s r).ng = s.ok + s.ng + 1 := by
  rcases r with ⟨td, code, data, err⟩
  cases err <;> cases data <;> simp [aggStep] <;> try omega
  split <;> simp <;> omega

theorem aggLoop_done (batch : ℕ) (rs : List FetchResult) :
    ∀ s : AggState, (aggLoop batch s rs).done = s.done + rs.length := by
  induction rs with
  | nil => intro s; simp [aggLoop]
  | cons r rs ih =>
    intro s
    have h := ih (aggStep batch s r)
    simp only [aggLoop, List.foldl_cons] at h ⊢
    rw [h, aggStep_done]
    simp
    omega

theorem aggLoop_ok_ng (batch : ℕ) (rs : List FetchResult) :
    ∀ s : AggState,
      (aggLoop batch s rs).ok + (aggLoop batch s rs).ng
        = s.ok + s.ng + rs.length := by
  induction rs with
  | nil => intro s; simp [aggLoop]
  | cons r rs ih =>
    intro s
    have h := ih (aggStep batch s r)
    have h2 := aggStep_ok_ng batch s r
    simp only [aggLoop, List.foldl_cons] at h ⊢
    rw [h, h2]
    simp
    omega

theorem aggFinal_done (s : AggState) : (aggFinal s).done = s.done := by
  unfold aggFinal; split <;> rfl

theorem aggFinal_ok (s : AggState) : (aggFinal s).ok = s.ok := by
  unfold aggFinal; split <;> rfl

theorem aggFinal_ng (s : AggState) : (aggFinal s).ng = s.ng := by
  unfold aggFinal; split <;> rfl

theorem aggFinal_buf (s : AggState) : (aggFinal s).buf = [] := by
  unfold aggFinal
  split
  · assumption
  · rfl

theorem aggFinal_flatten (s : AggState) :
    (aggFinal s).flushes.flatten = s.flushes.flatten ++ s.buf := by
  unfold aggFinal
  split
  · rename_i h
    simp [h]
  · simp

theorem aggStep_flatten (batch : ℕ) (s : AggState) (r : FetchResult) :
    (aggStep batch s r).flushes.flatten ++ (aggStep batch s r).buf
      = s.flushes.flatten ++ s.buf ++ successRows [r] := by
  rcases r with ⟨td, code, data, err⟩
  cases err with
  | some e => simp [aggStep, successRows]
  | none =>
    cases data with
    | none => simp [aggStep, successRows]
    | some d =>
      simp only [aggStep, successRows, List.filterMap]
      split
      · simp
      · simp

theorem aggLoop_flatten (batch : ℕ) (rs : List FetchResult) :
    ∀ s : AggState,
      (aggLoop batch s rs).flushes.flatten ++ (aggLoop batch s rs).buf
        = s.flushes.flatten ++ s.buf ++ successRows rs := by
  induction rs with
  | nil => intro s; simp [aggLoop, successRows]
  | cons r rs ih =>
    intro s
    have h := ih (aggStep batch s r)
    have h2 := aggStep_flatten batch s r
    have hrs : successRows (r :: rs) = successRows [r] ++ successRows rs := by
      simp [successRows, List.filterMap]
      rcases r with ⟨td, code, data, err⟩
      cases err <;> cases data <;> simp
    simp only [aggLoop, List.foldl_cons] at h ⊢
    rw [h, h2, hrs]
    simp [List.append_assoc]

theorem isSuccess_shape (r : FetchResult) (h : isSuccess r = true) :
    r.err = none ∧ ∃ d, r.data = some d := by
  rcases r with ⟨td, code, data, err⟩
  cases err <;> cases data <;> simp_all [isSuccess]

theorem aggLoop_success_pattern (batch : ℕ) (hb : 0 < batch)
    (rs : List FetchResult) :
    ∀ s : AggState, (∀ r ∈ rs, isSuccess r = true) → s.buf.length < batch →
      (aggLoop batch s rs).buf.length
          = bufLenFrom batch s.buf.length rs.length
      ∧ (aggLoop batch s rs).flushes.map List.length
          = s.flushes.map List.length
            ++ sizesFrom batch s.buf.length rs.length := by
  induction rs with
  | nil => intro s _ _; simp [aggLoop, bufLenFrom, sizesFrom]
  | cons r rs ih =>
    intro s hall hlt
    obtain ⟨herr, d, hdata⟩ := isSuccess_shape r (hall r (List.mem_cons_self r rs))
    have hall' : ∀ x ∈ rs, isSuccess x = true :=
      fun x hx => hall x (List.mem_cons_of_mem r hx)
    have hstep : aggStep batch s r
        = if batch ≤ s.buf.length + 1 then
            (⟨s.done + 1, s.ok + 1, s.ng, [],
              s.flushes ++ [s.buf ++ [buildRow r.td r.code d]]⟩ : AggState)
          else ⟨s.done + 1, s.ok + 1, s.ng,
            s.buf ++ [buildRow r.td r.code d], s.flushes⟩ := by
      rcases r with ⟨td, code, data, err⟩
      simp only at herr hdata
      subst herr hdata
      simp [aggStep]
    simp only [aggLoop, List.foldl_cons, List.length_cons] at ih ⊢
    rw [hstep]
    by_cases hc : batch ≤ s.buf.length + 1
    · have hfull : s.buf.length + 1 = batch := by omega
      rw [if_pos hc]
      have h := ih (⟨s.done + 1, s.ok + 1, s.ng, [],
        s.flushes ++ [s.buf ++ [buildRow r.td r.code d]]⟩ : AggState) hall'
        (by simpa using hb)
      simp only [List.length_nil] at h
      refine ⟨?_, ?_⟩
      · rw [h.1]
        show _ = bufLenFrom batch s.buf.length (rs.length + 1)
        rw [bufLenFrom, if_pos hc]
      · rw [h.2]
        show _ = _ ++ sizesFrom batch s.buf.length (rs.length + 1)
        rw [sizesFrom, if_pos hc]
        simp [hfull]
    · rw [if_neg hc]
      have hlen : (s.buf ++ [buildRow r.td r.code d]).length = s.buf.length + 1 := by
        simp
      have h := ih (⟨s.done + 1, s.ok + 1, s.ng,
        s.buf ++ [buildRow r.td r.code d], s.flushes⟩ : AggState) hall'
        (by simp only [hlen]; omega)
      simp only [hlen] at h
      refine ⟨?_, ?_⟩
      · rw [h.1]
        show _ = bufLenFrom batch s.buf.length (rs.length + 1)
        rw [bufLenFrom, if_neg hc]
      · rw [h.2]
        show _ = _ ++ sizesFrom batch s.buf.length (rs.length + 1)
        rw [sizesFrom, if_neg hc]

theorem ensureTablesGen_mem (fields : List String) (s : Schema)
    (c : String) (hc : c ∈ fields) :
    c ∈ (ensureTablesGen fields s).1.cols := by
  unfold ensureTablesGen
  simp only []
  by_cases hmem : c ∈ (if s.hasTable then s else ⟨true, createCols fields⟩).cols
  · exact List.mem_append_left _ hmem
  · refine List.mem_append_right _ ?_
    refine List.mem_filter.2 ⟨hc, ?_⟩
    simpa using hmem

theorem ensureTablesGen_fixed (fields : List String) (t : Schema)
    (htab : t.hasTable = true) (hmem : ∀ c ∈ fields, c ∈ t.cols) :
    ensureTablesGen fields t = (t, []) := by
  rcases t with ⟨ht, cols⟩
  simp only at htab
  subst htab
  have hempty : fields.filter (fun c => decide (c ∉ cols)) = [] := by
    rw [List.filter_eq_nil_iff]
    intro c hc
    have := hmem c hc
    simp only at this
    simp [this]
  unfold ensureTablesGen
  simp [hempty]
  intro a ha
  simpa using hmem a ha

theorem ensureTablesGen_idem (fields : List String) (s : Schema) :
    ensureTablesGen fields (ensureTablesGen fields s).1
      = ((ensureTablesGen fields s).1, []) :=
  ensureTablesGen_fixed fields (ensureTablesGen fields s).1 rfl
    (ensureTablesGen_mem fields s)

theorem aggLoop_init_counts (batch : ℕ) (l : List FetchResult) :
    (aggLoop batch aggInit l).done = l.length
    ∧ (aggLoop batch aggInit l).ok + (aggLoop batch aggInit l).ng
        = l.length := by
  constructor
  · rw [aggLoop_done]; simp [aggInit]
  · rw [aggLoop_ok_ng]; simp [aggInit]

/-- C1: over any full run (the aggregator loop of run consumes exactly one
result per job, total_jobs in all), the final counters satisfy
done = ok + ng = total_jobs; and after every prefix of consumed results
done = ok + ng holds and done never exceeds total_jobs. -/
theorem C1_counters (batch total : ℕ) (rs : List FetchResult)
    (h : rs.length = total) :
    ((runAgg batch rs).done = (runAgg batch rs).ok + (runAgg batch rs).ng
      ∧ (runAgg batch rs).done = total)
    ∧ ∀ n : ℕ,
        (aggLoop batch aggInit (rs.take n)).done
            = (aggLoop batch aggInit (rs.take n)).ok
              + (aggLoop batch aggInit (rs.take n)).ng
        ∧ (aggLoop batch aggInit (rs.take n)).done ≤ total := by
  subst h
  refine ⟨⟨?_, ?_⟩, ?_⟩
  · unfold runAgg
    rw [aggFinal_done, aggFinal_ok, aggFinal_ng,
      (aggLoop_init_counts batch rs).1, (aggLoop_init_counts batch rs).2]
  · unfold runAgg
    rw [aggFinal_done, (aggLoop_init_counts batch rs).1]
  · intro n
    refine ⟨((aggLoop_init_counts batch (rs.take n)).1).trans
      ((aggLoop_init_counts batch (rs.take n)).2).symm, ?_⟩
    rw [(aggLoop_init_counts batch (rs.take n)).1]
    simp [List.length_take]

theorem C1_counters_witness :
    ([demoSuccess, demoFailure] : List FetchResult).length = 2
    ∧ (((runAgg 1 [demoSuccess, demoFailure]).done
          = (runAgg 1 [demoSuccess, demoFailure]).ok
            + (runAgg 1 [demoSuccess, demoFailure]).ng
        ∧ (runAgg 1 [demoSuccess, demoFailure]).done = 2)
      ∧ ∀ n : ℕ,
          (aggLoop 1 aggInit (([demoSuccess, demoFailure]
              : List FetchResult).take n)).done
              = (aggLoop 1 aggInit (([demoSuccess, demoFailure]
                  : List FetchResult).take n)).ok
                + (aggLoop 1 aggInit (([demoSuccess, demoFailure]
                    : List FetchResult).take n)).ng
          ∧ (aggLoop 1 aggInit (([demoSuccess, demoFailure]
              : List FetchResult).take n)).done ≤ 2) :=
  ⟨rfl, C1_counters 1 2 [demoSuccess, demoFailure] rfl⟩

/-- C7: on a run of exactly 250 successful jobs with batch = 100, the
aggregator issues exactly 3 executemany calls of sizes 100, 100 and 50
(the last from the finally-block flush), and in total flushes no fewer
records than there were successes. -/
theorem C7_batch_flush (rs : List FetchResult)
    (hlen : rs.length = 250) (hs : ∀ r ∈ rs, isSuccess r = true) :
    (runAgg 100 rs).flushes.map List.length = [100, 100, 50]
    ∧ ((runAgg 100 rs).flushes.map List.length).sum = 250
    ∧ 250 ≤ ((runAgg 100 rs).flushes.map List.length).sum := by
  have hzero : aggInit.buf.length = 0 := rfl
  have hfe : aggInit.flushes.map List.length = [] := rfl
  have hp := aggLoop_success_pattern 100 (by norm_num) rs aggInit hs
    (by simp [aggInit])
  rw [hlen] at hp
  have hsz : sizesFrom 100 0 250 = [100, 100] := by decide
  have hbl : bufLenFrom 100 0 250 = 50 := by decide
  have hbuf : (aggLoop 100 aggInit rs).buf.length = 50 := by
    have h1 := hp.1
    rw [hzero, hbl] at h1
    exact h1
  have hfl : (aggLoop 100 aggInit rs).flushes.map List.length
      = [100, 100] := by
    have h2 := hp.2
    rw [hzero, hfe, hsz] at h2
    simpa using h2
  have hne : (aggLoop 100 aggInit rs).buf ≠ [] := by
    intro h0
    rw [h0] at hbuf
    simp at hbuf
  have hfinal : runAgg 100 rs
      = ⟨(aggLoop 100 aggInit rs).done, (aggLoop 100 aggInit rs).ok,
         (aggLoop 100 aggInit rs).ng, [],
         (aggLoop 100 aggInit rs).flushes
           ++ [(aggLoop 100 aggInit rs).buf]⟩ := by
    unfold runAgg aggFinal
    rw [if_neg hne]
  have hmap : (runAgg 100 rs).flushes.map List.length = [100, 100, 50] := by
    rw [hfinal]
    show ((aggLoop 100 aggInit rs).flushes
      ++ [(aggLoop 100 aggInit rs).buf]).map List.length = [100, 100, 50]
    rw [List.map_append, hfl]
    simp [hbuf]
  exact ⟨hmap, by rw [hmap]; rfl, by rw [hmap]; decide⟩

theorem C7_batch_flush_witness :
    (List.replicate 250 demoSuccess).length = 250
    ∧ (∀ r ∈ List.replicate 250 demoSuccess, isSuccess r = true)
    ∧ ((runAgg 100 (List.replicate 250 demoSuccess)).flushes.map
          List.length = [100, 100, 50]
      ∧ ((runAgg 100 (List.replicate 250 demoSuccess)).flushes.map
            List.length).sum = 250
      ∧ 250 ≤ ((runAgg 100 (List.replicate 250 demoSuccess)).flushes.map
            List.length).sum) :=
  ⟨by decide, by decide, C7_batch_flush _ (by decide) (by decide)⟩

/-- C8: however the aggregator terminates — normal completion (k covers
the whole stream) or early termination after only k consumed results —
the finally-block flush runs: the buffer is left empty and the store has
received exactly the rows of every success consumed, so no
successfully-fetched buffered record is lost. -/
theorem C8_flush_on_termination (batch k : ℕ) (rs : List FetchResult) :
    (runAggEarly batch k rs).buf = []
    ∧ (runAggEarly batch k rs).flushes.flatten
        = successRows (rs.take k) := by
  constructor
  · unfold runAggEarly
    exact aggFinal_buf _
  · unfold runAggEarly
    rw [aggFinal_flatten]
    have h := aggLoop_flatten batch (rs.take k) aggInit
    simpa [aggInit] using h

/-- C10: ensure_tables is idempotent in both source files: on a schema
produced by a prior ensure_tables call, a second call returns the same
schema and issues no ALTER TABLE at all. -/
theorem C10_ensure_tables_idempotent (s t : Schema) :
    ensure_tables_text (ensure_tables_text s).1
        = ((ensure_tables_text s).1, [])
    ∧ ensure_tables_scraper (ensure_tables_scraper t).1
        = ((ensure_tables_scraper t).1, []) :=
  ⟨ensureTablesGen_idem FIELD_ORDER s, ensureTablesGen_idem FIELDS t⟩

/-- C3: for a job one of whose tab fetchers fails on its first two
attempts and returns a chunk on the third: the worker emits exactly one
result for that job and it is a Success (err = None) — zero Failures; the
retry loop surfaces that third-attempt chunk after exactly 3 attempts,
stopping at the success, and no fetcher ever uses more than RETRIES
attempts; the backoff slept exactly BASE_DELAY + BASE_DELAY * 1.8, so the
job's elapsed time is at least BASE_DELAY + BASE_DELAY * 1.8 seconds. -/
theorem C3_retry_backoff (fs : List FetchBehavior) (f : FetchBehavior)
    (hmem : f ∈ fs) (c : List (String × String))
    (h0 : f 0 = none) (h1 : f 1 = none) (h2 : f 2 = some c)
    (td code : String) :
    workerRun (collectorFetch fs) [some (td, code)]
      = [⟨td, code, some (fetch_all_for_code fs).1, none⟩]
    ∧ (retryFetch f).1 = some c
    ∧ (retryFetch f).2.2 = 3
    ∧ (∀ g : FetchBehavior, (retryFetch g).2.2 ≤ RETRIES)
    ∧ (retryFetch f).2.1 = BASE_DELAY + BASE_DELAY * BACKOFF_MULT
    ∧ BASE_DELAY + BASE_DELAY * BACKOFF_MULT
        ≤ (fetch_all_for_code fs).2 := by
  have hr := retryFetch_fail_twice f c h0 h1 h2
  refine ⟨?_, ?_, ?_, retryFetch_attempts_le, ?_, ?_⟩
  · simp [workerRun, workerResult, collectorFetch]
  · rw [hr]
  · rw [hr]
  · rw [hr]
  · have hm := fetch_sleep_member_le fs f hmem
    rw [hr] at hm
    exact hm

theorem C3_retry_backoff_witness :
    demoFailTwice ∈ List.replicate 5 demoFailTwice
    ∧ demoFailTwice 0 = none
    ∧ demoFailTwice 1 = none
    ∧ demoFailTwice 2 = some [("company_name", "A")]
    ∧ (workerRun (collectorFetch (List.replicate 5 demoFailTwice))
          [some ("20240101", "1234")]
        = [⟨"20240101", "1234",
            some (fetch_all_for_code (List.replicate 5 demoFailTwice)).1,
            none⟩]
      ∧ (retryFetch demoFailTwice).1 = some [("company_name", "A")]
      ∧ (retryFetch demoFailTwice).2.2 = 3
      ∧ (∀ g : FetchBehavior, (retryFetch g).2.2 ≤ RETRIES)
      ∧ (retryFetch demoFailTwice).2.1
          = BASE_DELAY + BASE_DELAY * BACKOFF_MULT
      ∧ BASE_DELAY + BASE_DELAY * BACKOFF_MULT
          ≤ (fetch_all_for_code (List.replicate 5 demoFailTwice)).2) :=
  ⟨List.mem_replicate.mpr ⟨by decide, rfl⟩, rfl, rfl, rfl,
    C3_retry_backoff (List.replicate 5 demoFailTwice) demoFailTwice
      (List.mem_replicate.mpr ⟨by decide, rfl⟩)
      [("company_name", "A")] rfl rfl rfl "20240101" "1234"⟩

/-- C4 (counterexample): a job whose every tab fetch attempt fails is
nonetheless emitted by the worker as a Success tuple with empty data,
counted in ok (not ng), and an all-empty-fields record for its key is
flushed to the store — refuting the claim that no record is written and
that the job is counted in ng with the final attempt's failure
surfaced. -/
theorem C4_counterexample :
    (workerResult (collectorFetch fsFail) ("20240101", "1234")).err = none
    ∧ (workerResult (collectorFetch fsFail) ("20240101", "1234")).data
        = some []
    ∧ (runAgg DEFAULT_BATCH
        [workerResult (collectorFetch fsFail) ("20240101", "1234")]).ok = 1
    ∧ (runAgg DEFAULT_BATCH
        [workerResult (collectorFetch fsFail) ("20240101", "1234")]).ng = 0
    ∧ (runAgg DEFAULT_BATCH
        [workerResult (collectorFetch fsFail)
          ("20240101", "1234")]).flushes.flatten
        = [buildRow "20240101" "1234" []] := by
  decide

/-- C4 (amended): for any job whose every fetch attempt fails, the broad
except of the retry loop swallows every failure: the worker emits exactly
one result with err = None and empty data (no attempt's failure is
surfaced), the aggregator counts the job in ok — ng stays 0 — and a
record whose every field is the empty string is written to the store for
that key. -/
theorem C4_all_attempts_fail (fs : List FetchBehavior)
    (h : ∀ f ∈ fs, ∀ n, f n = none) (td code : String) :
    (workerResult (collectorFetch fs) (td, code)).err = none
    ∧ (workerResult (collectorFetch fs) (td, code)).data = some []
    ∧ (runAgg DEFAULT_BATCH
        [workerResult (collectorFetch fs) (td, code)]).ok = 1
    ∧ (runAgg DEFAULT_BATCH
        [workerResult (collectorFetch fs) (td, code)]).ng = 0
    ∧ (runAgg DEFAULT_BATCH
        [workerResult (collectorFetch fs) (td, code)]).flushes.flatten
        = [td :: code :: FIELD_ORDER.map (fun _ => "")] := by
  have hdata := fetch_all_data_allfail fs h
  have hw : workerResult (collectorFetch fs) (td, code)
      = ⟨td, code, some [], none⟩ := by
    simp [workerResult, collectorFetch, hdata]
  rw [hw]
  have hstep : aggStep DEFAULT_BATCH aggInit
      (⟨td, code, some [], none⟩ : FetchResult)
      = ⟨1, 1, 0, [buildRow td code []], []⟩ := by
    simp [aggStep, aggInit, DEFAULT_BATCH]
  have hloop : aggLoop DEFAULT_BATCH aggInit
      [(⟨td, code, some [], none⟩ : FetchResult)]
      = ⟨1, 1, 0, [buildRow td code []], []⟩ := by
    simp [aggLoop, hstep]
  have hfin : runAgg DEFAULT_BATCH [(⟨td, code, some [], none⟩ : FetchResult)]
      = ⟨1, 1, 0, [], [[buildRow td code []]]⟩ := by
    unfold runAgg
    rw [hloop]
    unfold aggFinal
    simp
  rw [hfin]
  refine ⟨rfl, rfl, rfl, rfl, ?_⟩
  show [[buildRow td code []]].flatten
      = [td :: code :: FIELD_ORDER.map (fun _ => "")]
  simp [buildRow]

theorem C4_all_attempts_fail_witness :
    (∀ f ∈ fsFail, ∀ n : ℕ, f n = none)
    ∧ ((workerResult (collectorFetch fsFail) ("20240101", "1234")).err = none
      ∧ (workerResult (collectorFetch fsFail) ("20240101", "1234")).data
          = some []
      ∧ (runAgg DEFAULT_BATCH
          [workerResult (collectorFetch fsFail) ("20240101", "1234")]).ok = 1
      ∧ (runAgg DEFAULT_BATCH
          [workerResult (collectorFetch fsFail) ("20240101", "1234")]).ng = 0
      ∧ (runAgg DEFAULT_BATCH
          [workerResult (collectorFetch fsFail)
            ("20240101", "1234")]).flushes.flatten
          = ["20240101" :: "1234" :: FIELD_ORDER.map (fun _ => "")]) :=
  ⟨fun f hf n => by rw [List.eq_of_mem_replicate hf]; rfl,
    C4_all_attempts_fail fsFail
      (fun f hf n => by rw [List.eq_of_mem_replicate hf]; rfl)
      "20240101" "1234"⟩

/-- C5: a worker emits exactly one FetchResult per dequeued job: its
emitted results are exactly the per-job results of the jobs it dequeued
before any stop marker, one each, Success or Failure alike — also when
the fetch raises, since the worker's except branch emits the Failure
tuple; hence over any assignment of the seeded jobs to the worker pool,
the total number of emitted results equals the total number of jobs and
no job is silently dropped. -/
theorem C5_one_result_per_job
    (fetch : String × String → Except String (List (String × String)))
    (items : List (Option (String × String))) :
    workerRun fetch items
      = ((items.takeWhile Option.isSome).filterMap id).map
          (workerResult fetch)
    ∧ (workerRun fetch items).length
        = ((items.takeWhile Option.isSome).filterMap id).length
    ∧ ∀ assign : List (List (String × String)),
        ((assign.map (fun w => workerRun fetch (w.map some))).flatten).length
          = assign.flatten.length := by
  refine ⟨workerRun_eq fetch items, ?_, ?_⟩
  · rw [workerRun_eq]
    simp
  · intro assign
    simp [workerRun_jobs, Function.comp_def]

/-- C6 (code bug): the drain protocol of the claim is never executed by
run: the only queue puts of a run are the seeded jobs — zero stop markers
against 3 started workers — because stop_workers, whose body would
enqueue exactly one None per worker, is defined but never called, and the
worker tasks are never awaited. Evaluated at a failing input: one job,
concurrency 3. -/
theorem C6_stop_markers_never_enqueued :
    (runQueuePuts "20240101" ["1234"]).count none = 0
    ∧ runWorkersStarted 3 = 3
    ∧ (stop_workers_puts (runWorkersStarted 3)).count none = 3
    ∧ (runQueuePuts "20240101" ["1234"]).count none
        ≠ runWorkersStarted 3 := by
  decide

/-- C9 (counterexample): with an empty enumerated target set, main
returns without reporting counters (noTargets); and run invoked with an
empty code list still creates max(1, min(3, 8)) = 3 worker tasks, since
the worker count never depends on the job list. The claim's "never starts
a worker" and "reports (ok=0, ng=0, total=0)" do not both hold on any
code path. -/
theorem C9_counterexample :
    mainDispatch none [] = MainOutcome.noTargets
    ∧ runWorkersStarted 3 = 3
    ∧ (3 : ℕ) ≠ 0
    ∧ runQueuePuts "20240101" [] = [] := by
  decide

/-- C9 (amended): when the enumerated job set is empty, main returns
before calling run — no worker and no aggregator starts, but no final
(ok, ng, total) report is made either; when run itself is invoked with an
empty code list it enqueues nothing, consumes nothing and reports
(ok=0, ng=0, total=0), but still starts max(1, min(concurrency, 8)) ≥ 1
workers. -/
theorem C9_empty_input (conc : ℕ) (td : String) :
    mainDispatch none [] = MainOutcome.noTargets
    ∧ 1 ≤ runWorkersStarted conc
    ∧ runQueuePuts td [] = []
    ∧ (runAgg DEFAULT_BATCH []).done = 0
    ∧ runReport DEFAULT_BATCH [] 0 = (0, 0, 0) :=
  ⟨rfl, le_max_left 1 _, rfl, rfl, rfl⟩
